import Mathlib

/-!
Verification development for the bitfinex-p2p-exchange repository.

Shallow embedding conventions used throughout this file:
* JavaScript numbers are modelled as rationals (ℚ); NaN, where a code path
  can produce it, is modelled as the Option value none (JNum below).
  None of the properties proved here depends on float rounding.
* Class instances with mutable fields become immutable structures; a method
  that mutates its receiver becomes a function returning the updated value
  (or an Except carrying the thrown OrderError code).
* Thrown errors are modelled by their code discriminant (the message strings
  are not modelled).
* uuidv4() and Date.now() are modelled as explicit oracle parameters
  (freshId / genId, now): the code under scrutiny never branches on their
  values beyond string truthiness.
* The private _version counter of Order is not modelled: it is write-only
  except through toJSON, and no property here mentions it.
Sources: src/unnamed/part_000 (models/Order.ts), the OrderBook class embedded
in src/src/models/Order.test.ts, and src/unnamed/part_002 (services/P2PService.ts).
-/

namespace P2PX

/-- Order side, source enum OrderType with wire strings "buy" / "sell". -/
inductive OrderType where
  | buy
  | sell
deriving DecidableEq, Repr

/-- Order status, source enum OrderStatus with wire strings "open",
"filled", "partially_filled", "cancelled".  The constructor for the source
value "open" is named opened because open is a Lean keyword. -/
inductive OrderStatus where
  | opened
  | filled
  | partFilled
  | cancelled
deriving DecidableEq, Repr

/-- Error codes thrown as OrderError in models/Order.ts. -/
inductive OrderErrorCode where
  | INVALID_PRICE
  | INVALID_AMOUNT
  | INVALID_CLIENT_ID
  | INVALID_TYPE
  | INVALID_STATUS
  | INVALID_FILLED_AMOUNT
  | NEGATIVE_FILLED_AMOUNT
  | FILLED_AMOUNT_EXCEEDS_AVAILABLE
  | ORDER_FILLED
  | INVALID_ORDER_DATA
  | INVALID_FILLED_ORDER
deriving DecidableEq, Repr

/-- The Order entity: the fields of class Order (models/Order.ts).
readonly id / type / price / originalAmount / timestamp / clientId and the
mutable _amount / _status.  The structure itself carries no validation:
validation lives in Order.create (the constructor) below, matching the
TypeScript split between the class field layout and validateInputs. -/
structure Order where
  id : String
  type : OrderType
  price : ℚ
  amount : ℚ
  clientId : String
  originalAmount : ℚ
  timestamp : ℚ
  status : OrderStatus
deriving DecidableEq, Repr

namespace Order

/-- Order.isActive: status is OPEN or PARTIALLY_FILLED. -/
def isActive (o : Order) : Bool :=
  o.status = OrderStatus.opened || o.status = OrderStatus.partFilled

/-- Order.canMatchWith: sides differ, both active, and the price is
compatible checked from the receiver's side. -/
def canMatchWith (o other : Order) : Bool :=
  if o.type = other.type then false
  else if !o.isActive || !other.isActive then false
  else if o.type = OrderType.buy then decide (o.price ≥ other.price)
  else decide (o.price ≤ other.price)

/-- Order.clone: a new Order built from the same eight field values.
The TypeScript clone re-runs constructor validation, which can only fail on
field combinations no claim in scope produces; the copy itself is exact. -/
def clone (o : Order) : Order :=
  { id := o.id, type := o.type, price := o.price, amount := o.amount,
    clientId := o.clientId, originalAmount := o.originalAmount,
    timestamp := o.timestamp, status := o.status }

/-- Order.updateStatus (private): recompute status from the remaining
amount; leaves status untouched when amount is neither 0 nor below the
original amount. -/
def updateStatus (o : Order) : Order :=
  if o.amount = 0 then { o with status := OrderStatus.filled }
  else if o.amount < o.originalAmount then { o with status := OrderStatus.partFilled }
  else o

/-- Order.validateFilledAmount followed by the fill itself
(Order.updateAfterMatch).  The NaN guard of the source cannot fire in the
rational model; the remaining guards are translated in source order. -/
def updateAfterMatch (o : Order) (filledAmount : ℚ) : Except OrderErrorCode Order :=
  if filledAmount ≤ 0 then .error .NEGATIVE_FILLED_AMOUNT
  else if filledAmount > o.amount then .error .FILLED_AMOUNT_EXCEEDS_AVAILABLE
  else .ok (updateStatus { o with amount := o.amount - filledAmount })

/-- Order.cancel: rejects an already FILLED order, otherwise sets status
CANCELLED (idempotent on a CANCELLED order). -/
def cancel (o : Order) : Except OrderErrorCode Order :=
  if o.status = OrderStatus.filled then .error .ORDER_FILLED
  else .ok { o with status := OrderStatus.cancelled }

end Order

/-- A JavaScript runtime value as far as the validation code inspects one:
strings, numbers (NaN kept separate), booleans, null, undefined, and an
opaque non-null object value.  Only Order.fromObject / isValidOrderData and
the RPC payload validation receive untyped values. -/
inductive JSVal where
  | str (s : String)
  | num (q : ℚ)
  | nan
  | jbool (b : Bool)
  | jnull
  | undef
  | object
deriving DecidableEq, Repr

namespace JSVal

/-- JavaScript truthiness of a value. -/
def truthy : JSVal → Bool
  | .str s => s ≠ ""
  | .num q => q ≠ 0
  | .nan => false
  | .jbool b => b
  | .jnull => false
  | .undef => false
  | .object => true

/-- typeof v === "string". -/
def isStr : JSVal → Bool
  | .str _ => true
  | _ => false

end JSVal

/-- String.prototype.trim, implemented over the character list (the
built-in String.trim is not kernel-reducible). -/
def jsTrim (s : String) : String :=
  String.mk (((s.toList.dropWhile Char.isWhitespace).reverse.dropWhile
    Char.isWhitespace).reverse)

/-- Decimal string to number, the fragment of the Number("...") string
grammar exercised here: optional sign, digits, optional fraction digits,
surrounding whitespace trimmed, empty string is 0; anything else is NaN
(none).  Hex/exponent forms are out of scope for every property proved in
this file (no theorem depends on which rational a string coerces to). -/
def parseDec (s : String) : Option ℚ :=
  let t := jsTrim s
  if t = "" then some 0 else
  let (sign, body) :=
    match t.toList with
    | '-' :: rest => ((-1 : ℚ), rest)
    | '+' :: rest => ((1 : ℚ), rest)
    | l => ((1 : ℚ), l)
  let digitsVal : List Char → Option ℕ := fun l =>
    if l.all Char.isDigit ∧ l ≠ [] then
      some (l.foldl (fun acc c => acc * 10 + (c.toNat - 48)) 0)
    else none
  match body.splitOn '.' with
  | [intPart] =>
      (digitsVal intPart).map fun n => sign * n
  | [intPart, fracPart] =>
      match digitsVal intPart, digitsVal fracPart with
      | some n, some f =>
          some (sign * (n + (f : ℚ) / (10 : ℚ) ^ fracPart.length))
      | _, _ => none
  | _ => none

/-- The Number(v) coercion; none is NaN.  Plain objects coerce to NaN
(arrays, which may coerce differently, never reach a numeric field in the
code under study). -/
def toNumber : JSVal → Option ℚ
  | .str s => parseDec s
  | .num q => some q
  | .nan => none
  | .jbool b => some (if b then 1 else 0)
  | .jnull => some 0
  | .undef => none
  | .object => none

/-- The String(v) image used where the code casts an arbitrary value into a
string-typed slot (the id field in fromObject); values other than strings
get their JavaScript string rendering.  No property in scope inspects the
rendering of a non-string. -/
def jsString : JSVal → String
  | .str s => s
  | .num q => toString q
  | .nan => "NaN"
  | .jbool b => if b then "true" else "false"
  | .jnull => "null"
  | .undef => "undefined"
  | .object => "[object Object]"

/-- The OrderData argument of the Order constructor, as the two call sites
build it: type and status are already members of their enums (the
TypeScript type, re-checked dynamically by validateInputs, cannot hold
anything else by the time the constructor runs), numbers may be NaN
(Option ℚ with none = NaN), clientId is whatever untyped value was cast
into the field. -/
structure OrderData where
  id : Option String := none
  type : OrderType
  price : Option ℚ
  amount : Option ℚ
  clientId : JSVal
  originalAmount : Option (Option ℚ) := none
  timestamp : Option (Option ℚ) := none
  status : Option OrderStatus := none

/-- Order.validateInputs: the constructor guards, in source order (price,
then amount twice, then clientId).  The dynamic enum-membership checks on
type and status always pass in this model (both call sites supply enum
members — see OrderData) and are therefore omitted; all other guards are
translated verbatim.  A NaN number is the none case of its Option. -/
def validateInputs (d : OrderData) : Except OrderErrorCode Unit :=
  match d.price with
  | none => .error .INVALID_PRICE
  | some p =>
    if p ≤ 0 then .error .INVALID_PRICE
    else
      match d.amount with
      | none => .error .INVALID_AMOUNT
      | some a =>
        if a < 0 ∨ (¬ d.status = some OrderStatus.filled ∧ a = 0) then
          .error .INVALID_AMOUNT
        else if ¬ (d.clientId.isStr ∧ jsTrim (jsString d.clientId) ≠ "") then
          .error .INVALID_CLIENT_ID
        else .ok ()

/-- The Order constructor: validateInputs, then the field assignments with
their JavaScript || defaults (a falsy id / originalAmount / timestamp /
status falls back to uuidv4() / amount / Date.now() / OPEN; falsy covers
absent, empty string, 0 and NaN).  freshId and now stand for uuidv4() and
Date.now(). -/
def Order.create (d : OrderData) (freshId : String) (now : ℚ) :
    Except OrderErrorCode Order :=
  match validateInputs d with
  | .error e => .error e
  | .ok _ =>
    let amount := d.amount.getD 0
    .ok
      { id := match d.id with
              | some s => if s = "" then freshId else s
              | none => freshId
        type := d.type
        price := d.price.getD 0
        amount := amount
        clientId := jsString d.clientId
        originalAmount := match d.originalAmount with
                          | some (some q) => if q = 0 then amount else q
                          | some none => amount
                          | none => amount
        timestamp := match d.timestamp with
                     | some (some q) => if q = 0 then now else q
                     | some none => now
                     | none => now
        status := d.status.getD OrderStatus.opened }

/-- A Record(string, unknown) as Order.fromObject consults one: the eight
field names the code reads, each either absent (none — the JavaScript
"in" test fails) or present with an arbitrary runtime value (which may
itself be undefined). -/
structure RawOrderData where
  id : Option JSVal := none
  type : Option JSVal := none
  price : Option JSVal := none
  amount : Option JSVal := none
  clientId : Option JSVal := none
  originalAmount : Option JSVal := none
  timestamp : Option JSVal := none
  status : Option JSVal := none
deriving DecidableEq, Repr

/-- Object.values(OrderType).includes(v): v is one of the two side strings. -/
def jsIsOrderType (v : JSVal) : Bool :=
  v = JSVal.str "buy" || v = JSVal.str "sell"

/-- Object.values(OrderStatus).includes(v): v is one of the four status
strings. -/
def jsIsOrderStatus (v : JSVal) : Bool :=
  v = JSVal.str "open" || v = JSVal.str "filled" ||
  v = JSVal.str "partially_filled" || v = JSVal.str "cancelled"

/-- The cast of a (membership-checked) status string into the enum; the
fallback for a non-member is unreachable behind isValidOrderData. -/
def statusOfStr (v : JSVal) : OrderStatus :=
  if v = JSVal.str "filled" then .filled
  else if v = JSVal.str "partially_filled" then .partFilled
  else if v = JSVal.str "cancelled" then .cancelled
  else .opened

/-- Order.isValidOrderData, translated check for check; the source's chain
of early false returns is rendered as the conjunction of its guards, one
conjunct per return-false site, in source order (presence of type and
clientId; type membership; the amount block, split on
data.status === FILLED; presence and positivity of price; status
membership when present).  Note what it does NOT check: clientId need only
be present — its type and non-emptiness are never inspected on this
path. -/
def isValidOrderData (d : RawOrderData) : Bool :=
  (d.type.isSome && d.clientId.isSome) &&
  jsIsOrderType (d.type.getD .undef) &&
  (if (d.status.getD .undef) = JSVal.str "filled" then
      d.amount.isSome &&
        (match toNumber (d.amount.getD .undef) with
         | none => false
         | some a => decide (0 ≤ a)) &&
      d.originalAmount.isSome &&
        (match toNumber (d.originalAmount.getD .undef) with
         | none => false
         | some oa => decide (0 < oa))
    else
      d.amount.isSome &&
        (match toNumber (d.amount.getD .undef) with
         | none => false
         | some a => decide (0 < a))) &&
  d.price.isSome &&
    (match toNumber (d.price.getD .undef) with
     | none => false
     | some p => decide (0 < p)) &&
  (!d.status.isSome || jsIsOrderStatus (d.status.getD .undef))

/-- Order.fromObject: validate the raw record, build the OrderData the way
the source does (casts and Number coercions field by field, optional fields
only when truthy), run the redundant filled-order re-check, then the Order
constructor.  Exceptions from the constructor are rethrown unchanged
(the catch block logs and rethrows). -/
def fromObject (d : RawOrderData) (freshId : String) (now : ℚ) :
    Except OrderErrorCode Order :=
  if ¬ isValidOrderData d then .error .INVALID_ORDER_DATA
  else
    let orderData : OrderData :=
      { type := if d.type.getD .undef = JSVal.str "buy" then .buy else .sell
        price := toNumber (d.price.getD .undef)
        amount := toNumber (d.amount.getD .undef)
        clientId := d.clientId.getD .undef
        id := if (d.id.getD .undef).truthy then some (jsString (d.id.getD .undef)) else none
        originalAmount :=
          if (d.originalAmount.getD .undef).truthy then
            some (toNumber (d.originalAmount.getD .undef)) else none
        timestamp :=
          if (d.timestamp.getD .undef).truthy then
            some (toNumber (d.timestamp.getD .undef)) else none
        status :=
          if (d.status.getD .undef).truthy then
            some (statusOfStr (d.status.getD .undef)) else none }
    if (d.status.getD .undef) = JSVal.str "filled" ∧
       toNumber (d.amount.getD .undef) = some 0 ∧
       ¬ (d.originalAmount.getD .undef).truthy then
      .error .INVALID_FILLED_ORDER
    else Order.create orderData freshId now

/-- One matching event, interface OrderMatch of models/OrderBook.ts.  In the
source the two order slots hold references to live Order objects; this value
model records their field values at the moment the match record is built
(the reference sharing itself is studied in the heap model further down). -/
structure OrderMatch where
  id : String
  buyOrder : Order
  sellOrder : Order
  matchedAmount : ℚ
  price : ℚ
  timestamp : ℚ
deriving DecidableEq, Repr

/-- Error codes thrown as OrderBookError in models/OrderBook.ts. -/
inductive OrderBookErrorCode where
  | NULL_ORDER
  | INVALID_ORDER_STATUS
  | DUPLICATE_ORDER_ID
  | MISSING_ORDER_ID
  | CANCEL_ERROR
  | INVALID_STATE
deriving DecidableEq, Repr

/-- State of the OrderBook class: the two active collections and the match
history. -/
structure OrderBook where
  buyOrders : List Order
  sellOrders : List Order
  «matches» : List OrderMatch
deriving DecidableEq, Repr

/-- Result of OrderBook.addOrder. -/
structure OrderSubmissionResult where
  order : Order
  «matches» : List OrderMatch
  remainingOrder : Option Order
deriving DecidableEq, Repr

/-- Three-way comparison on rationals, the sign of the JavaScript
subtraction a - b used by the sort comparators. -/
def ordCmp (a b : ℚ) : Ordering :=
  if a < b then .lt else if b < a then .gt else .eq

/-- Three-way comparison on ids, modelling String.localeCompare as plain
lexicographic comparison. -/
def idCmp (a b : String) : Ordering :=
  if a < b then .lt else if b < a then .gt else .eq

/-- The candidate comparator inlined in addOrder (lines 164-184 of the
OrderBook source): ascending resting price for an incoming BUY, descending
for an incoming SELL, then ascending timestamp, then id. -/
def candCmp (incoming : OrderType) (a b : Order) : Ordering :=
  let pc := if incoming = OrderType.buy then ordCmp a.price b.price
            else ordCmp b.price a.price
  if pc ≠ .eq then pc
  else
    let tc := ordCmp a.timestamp b.timestamp
    if tc ≠ .eq then tc else idCmp a.id b.id

/-- Boolean order corresponding to candCmp (a sorts no later than b). -/
def candLE (incoming : OrderType) (a b : Order) : Bool :=
  candCmp incoming a b ≠ .gt

/-- The comparator-driven Array.prototype.sort of the candidate list,
modelled by a stable sort (Array.prototype.sort is stable). -/
def sortCandidates (incoming : OrderType) (l : List Order) : List Order :=
  l.insertionSort fun a b => candLE incoming a b = true

/-- OrderBook.sortBuyOrders comparator: descending price, ascending
timestamp, then id. -/
def buyBookCmp (a b : Order) : Ordering :=
  let pc := ordCmp b.price a.price
  if pc ≠ .eq then pc
  else
    let tc := ordCmp a.timestamp b.timestamp
    if tc ≠ .eq then tc else idCmp a.id b.id

/-- OrderBook.sortSellOrders comparator: ascending price, ascending
timestamp, then id. -/
def sellBookCmp (a b : Order) : Ordering :=
  let pc := ordCmp a.price b.price
  if pc ≠ .eq then pc
  else
    let tc := ordCmp a.timestamp b.timestamp
    if tc ≠ .eq then tc else idCmp a.id b.id

/-- OrderBook.sortBuyOrders. -/
def sortBuyOrders (l : List Order) : List Order :=
  l.insertionSort fun a b => buyBookCmp a b ≠ .gt

/-- OrderBook.sortSellOrders. -/
def sortSellOrders (l : List Order) : List Order :=
  l.insertionSort fun a b => sellBookCmp a b ≠ .gt

/-- OrderBook.findOrderById: first id hit in the buy collection, else in the
sell collection; the match history is not consulted. -/
def findOrderById (bk : OrderBook) (orderId : String) : Option Order :=
  (bk.buyOrders.find? fun o => o.id = orderId) <|>
    (bk.sellOrders.find? fun o => o.id = orderId)

/-- OrderBook.findMatchingOrders: filter the opposite collection by
candidate.canMatchWith(order), then clone each hit (working copies, not the
resident objects). -/
def findMatchingOrders (bk : OrderBook) (order : Order) : List Order :=
  ((if order.type = OrderType.buy then bk.sellOrders else bk.buyOrders).filter
    fun o => o.canMatchWith order).map Order.clone

/-- OrderBook.removeOrder: splice out the first order with the given id;
returns the removed order (if any) and the remaining list. -/
def removeOrder : List Order → String → Option Order × List Order
  | [], _ => (none, [])
  | o :: rest, orderId =>
    if o.id = orderId then (some o, rest)
    else
      let (r, rest₁) := removeOrder rest orderId
      (r, o :: rest₁)

/-- OrderBook.isValidMatch.  The dynamic not-an-object and
field-undefined probes are vacuous on typed match values; the id check is
JavaScript truthiness of a string. -/
def isValidMatch (m : OrderMatch) : Bool :=
  if m.id = "" then false
  else if ¬ (m.buyOrder.type = OrderType.buy ∧ m.sellOrder.type = OrderType.sell) then false
  else if m.matchedAmount ≤ 0 ∨ m.matchedAmount > m.buyOrder.amount ∨
          m.matchedAmount > m.sellOrder.amount then false
  else if m.price ≤ 0 ∨ m.sellOrder.price > m.buyOrder.price then false
  else true

/-- The matching loop of OrderBook.addOrder over the sorted candidates.
State threaded: the book (history appends and candidate removals), the
accumulated result matches, the current value of the incoming order (the
remainingOrder alias), and the count of uuid draws.  Returns additionally
whether remainingOrder was set to null (incoming fully filled).  The
try/catch around the two fills becomes the two error branches: a failed
candidate fill skips both fills, a failed incoming fill keeps the candidate
effects; both continue the loop, matching the logged-and-swallowed catch. -/
def addOrderLoop (typ : OrderType) (genId : ℕ → String) (now : ℚ) :
    List Order → OrderBook → List OrderMatch → Order → ℕ →
    OrderBook × List OrderMatch × Order × Bool
  | [], bk, acc, cur, _ => (bk, acc, cur, false)
  | c :: rest, bk, acc, cur, k =>
    if ¬ cur.isActive then (bk, acc, cur, false)
    else if ¬ c.isActive then addOrderLoop typ genId now rest bk acc cur k
    else
      let matchAmount := min cur.amount c.amount
      let m : OrderMatch :=
        { id := genId k
          buyOrder := if typ = OrderType.buy then cur else c
          sellOrder := if typ = OrderType.sell then cur else c
          matchedAmount := matchAmount
          price := c.price
          timestamp := now }
      if ¬ isValidMatch m then addOrderLoop typ genId now rest bk acc cur (k + 1)
      else
        let bk₁ := { bk with «matches» := bk.matches ++ [m] }
        let acc₁ := acc ++ [m]
        match c.updateAfterMatch matchAmount with
        | .error _ => addOrderLoop typ genId now rest bk₁ acc₁ cur (k + 1)
        | .ok c₁ =>
          let bk₂ :=
            if c₁.status = OrderStatus.filled then
              if typ = OrderType.buy then
                { bk₁ with sellOrders := (removeOrder bk₁.sellOrders c.id).2 }
              else
                { bk₁ with buyOrders := (removeOrder bk₁.buyOrders c.id).2 }
            else bk₁
          match cur.updateAfterMatch matchAmount with
          | .error _ => addOrderLoop typ genId now rest bk₂ acc₁ cur (k + 1)
          | .ok cur₁ =>
            if cur₁.status = OrderStatus.filled then (bk₂, acc₁, cur₁, true)
            else addOrderLoop typ genId now rest bk₂ acc₁ cur₁ (k + 1)

/-- The candidate sequence addOrder iterates: the matchable working copies,
sorted by the price-time-id comparator (steps 1 and 2 of the algorithm). -/
def addOrderCandidates (bk : OrderBook) (order : Order) : List Order :=
  sortCandidates order.type (findMatchingOrders bk order)

/-- OrderBook.addOrder.  The null-order precondition is vacuous on a typed
argument; the other two preconditions, the candidate selection and sort, the
matching loop, the residual insertion and the closing double re-sort are in
source order.  genId and now stand for uuidv4() and Date.now(). -/
def addOrder (bk : OrderBook) (order : Order) (genId : ℕ → String) (now : ℚ) :
    Except OrderBookErrorCode (OrderSubmissionResult × OrderBook) :=
  if ¬ order.isActive then .error .INVALID_ORDER_STATUS
  else if (findOrderById bk order.id).isSome then .error .DUPLICATE_ORDER_ID
  else
    let cands := addOrderCandidates bk order
    let (bk₁, acc, cur, remNull) := addOrderLoop order.type genId now cands bk [] order 0
    let remaining : Option Order := if remNull then none else some cur
    let bk₂ :=
      match remaining with
      | some r =>
        if r.isActive then
          if order.type = OrderType.buy then
            { bk₁ with buyOrders := sortBuyOrders (bk₁.buyOrders ++ [r]) }
          else
            { bk₁ with sellOrders := sortSellOrders (bk₁.sellOrders ++ [r]) }
        else bk₁
      | none => bk₁
    let bk₃ := { bk₂ with buyOrders := sortBuyOrders bk₂.buyOrders,
                          sellOrders := sortSellOrders bk₂.sellOrders }
    .ok ({ order := cur, «matches» := acc, remainingOrder := remaining }, bk₃)

/-- The buy-then-sell removal search at the head of OrderBook.cancelOrder
(lines 260-263): the first id hit is spliced out of its collection before
cancel() is attempted on it. -/
def locateForCancel (bk : OrderBook) (orderId : String) :
    Option (Order × OrderBook) :=
  match removeOrder bk.buyOrders orderId with
  | (some o, buys) => some (o, { bk with buyOrders := buys })
  | (none, _) =>
    match removeOrder bk.sellOrders orderId with
    | (some o, sells) => some (o, { bk with sellOrders := sells })
    | (none, _) => none

/-- OrderBook.cancelOrder.  The removal happens first; a cancel() failure
(order already FILLED) is rethrown as CANCEL_ERROR after the removal, so the
book is returned with the order already spliced out. -/
def cancelOrder (bk : OrderBook) (orderId : String) :
    Except OrderBookErrorCode (Option Order) × OrderBook :=
  if orderId = "" then (.error .MISSING_ORDER_ID, bk)
  else
    match locateForCancel bk orderId with
    | none => (.ok none, bk)
    | some (o, bk₁) =>
      match o.cancel with
      | .error _ => (.error .CANCEL_ERROR, bk₁)
      | .ok oc => (.ok (some oc), bk₁)

/-- An element of one of the three arrays handed to setState: either a
record of the expected shape or a primitive. -/
inductive RawElem (α : Type) where
  | record (a : α)
  | primitive
deriving DecidableEq, Repr

/-- A field of the state object handed to setState: an array of elements or
a non-array value. -/
inductive RawField (α : Type) where
  | notArray
  | array (elems : List (RawElem α))
deriving DecidableEq, Repr

/-- Array.isArray on a field. -/
def RawField.isArr {α : Type} : RawField α → Bool
  | .notArray => false
  | .array _ => true

/-- The record payloads of a field.  The source pushes elements unchecked;
in this typed model a primitive element carries no payload and contributes
nothing.  No property proved here observes an adopted primitive. -/
def RawField.recordsOf {α : Type} : RawField α → List α
  | .notArray => []
  | .array es => es.filterMap fun e => match e with
      | .record a => some a
      | .primitive => none

/-- The untyped state argument of OrderBook.setState. -/
structure RawState where
  buyOrders : RawField Order
  sellOrders : RawField Order
  «matches» : RawField OrderMatch
deriving DecidableEq, Repr

/-- OrderBook.isValidState: the three fields must be arrays.  Nothing else:
the trailing try block returns true without inspecting any element. -/
def isValidState (s : RawState) : Bool :=
  s.buyOrders.isArr && s.sellOrders.isArr && s.matches.isArr

/-- OrderBook.setState: on invalid shape throw INVALID_STATE before any
mutation; on success truncate and re-fill all three collections from the
argument and re-sort both sides. -/
def setState (bk : OrderBook) (s : RawState) :
    Except OrderBookErrorCode Unit × OrderBook :=
  if ¬ isValidState s then (.error .INVALID_STATE, bk)
  else
    (.ok (),
      { buyOrders := sortBuyOrders s.buyOrders.recordsOf
        sellOrders := sortSellOrders s.sellOrders.recordsOf
        «matches» := s.matches.recordsOf })

/-- The five ServiceAction wire strings (services/P2PService.ts). -/
def serviceActionStrs : List String :=
  ["submitOrder", "syncOrderbook", "getOrderbook", "announceMatch", "cancelOrder"]

/-- An inbound payload as P2PService.handleRequest receives one: either a
falsy or non-object value, or an object of which the three consulted fields
may each be absent or hold any runtime value. -/
inductive RawMsg where
  | prim
  | obj (clientId action data : Option JSVal)
deriving DecidableEq, Repr

/-- P2PService.isValidRPCPayload: clientId a string, action a string that is
one of the five ServiceAction values, data truthy and of object type. -/
def isValidRPCPayload : RawMsg → Bool
  | .prim => false
  | .obj c a d =>
    (c.getD .undef).isStr &&
    (a.getD .undef).isStr &&
    (match a.getD .undef with
     | .str s => serviceActionStrs.contains s
     | _ => false) &&
    ((d.getD .undef).truthy &&
      ((d.getD .undef) = JSVal.object || (d.getD .undef) = JSVal.jnull))

/-- What handleRequest sends back through handler.reply: an error reply, a
status/reason reply, or nothing at all (the reply callback is never
invoked). -/
inductive HandleReply where
  | errorReply (msg : String)
  | statusReply (status reason : String)
  | noReply
deriving DecidableEq, Repr

/-- P2PService.handleRequest, the complete function body: reject a
non-object payload, reject an invalid envelope, answer an own-clientId
request with the skipped status — and then fall off the end.  The book is
threaded through untouched because the function never references the
orderbook. -/
def handleRequest (ownClientId : String) (bk : OrderBook) (raw : RawMsg) :
    HandleReply × OrderBook :=
  match raw with
  | .prim => (.errorReply "Invalid payload format", bk)
  | .obj c a d =>
    if ¬ isValidRPCPayload (.obj c a d) then
      (.errorReply "Invalid RPC payload format", bk)
    else if c.getD .undef = JSVal.str ownClientId then
      (.statusReply "skipped" "own request", bk)
    else (.noReply, bk)

/-- String.prototype.includes: sub occurs contiguously in s (case
sensitive). -/
def strIncludes (s sub : String) : Bool :=
  decide (sub.toList <:+: s.toList)

/-- The retryability test of requestWithTimeout: the failure message
contains neither "Invalid" nor "INVALID" (String.includes is case
sensitive). -/
def isRetryableMsg (msg : String) : Bool :=
  !(strIncludes msg "Invalid") && !(strIncludes msg "INVALID")

/-- getBackoffDelay: retryDelay times 1.5 to the (attempt - 1). -/
def getBackoffDelay (retryDelay : ℚ) (attempt : ℕ) : ℚ :=
  retryDelay * ((3 : ℚ) / 2) ^ (attempt - 1)

/-- The retry while-loop of P2PService.requestWithTimeout over an oracle
giving the outcome of each transport attempt (attempt index = retryCount,
starting at 0; an outcome is a response or a failure message).  Returns the
list of backoff delays waited and the final outcome.  Fuel is structural
bookkeeping only: requestWithTimeout supplies 6, one per possible attempt,
and the loop breaks at retryCount 5 before fuel can run out. -/
def reqLoop {α : Type} (attempt : ℕ → Except String α) :
    ℕ → ℕ → List ℚ × Except String α
  | _, 0 => ([], .error "")
  | rc, fuel + 1 =>
    let pre : List ℚ := if 0 < rc then [getBackoffDelay 1000 rc] else []
    match attempt rc with
    | .ok v => (pre, .ok v)
    | .error e =>
      if ¬ isRetryableMsg e ∨ 5 ≤ rc then (pre, .error e)
      else
        let (ds, r) := reqLoop attempt (rc + 1) fuel
        (pre ++ ds, r)

/-- P2PService.requestWithTimeout: the retry loop from retryCount 0 with the
hard-coded maxRetries = 5 and retryDelay = 1000; when the loop exits with a
failure, the last observed error is thrown. -/
def requestWithTimeout {α : Type} (attempt : ℕ → Except String α) :
    List ℚ × Except String α :=
  reqLoop attempt 0 6

/-- A heap of Order objects (reference semantics for the aliasing analysis
of getState): cells addressed by allocation index. -/
structure OrderHeap where
  cells : List Order
deriving DecidableEq, Repr

/-- Dereference an order pointer. -/
def OrderHeap.read (h : OrderHeap) (r : ℕ) : Option Order :=
  h.cells.get? r

/-- Overwrite the order object behind a pointer (a mutation a caller might
attempt through a snapshot); out-of-range writes are no-ops. -/
def OrderHeap.write (h : OrderHeap) (r : ℕ) (o : Order) : OrderHeap :=
  ⟨h.cells.set r o⟩

/-- A heap of OrderMatch records. -/
structure MatchHeap where
  cells : List OrderMatch
deriving DecidableEq, Repr

/-- Dereference a match-record pointer. -/
def MatchHeap.read (h : MatchHeap) (r : ℕ) : Option OrderMatch :=
  h.cells.get? r

/-- An in-place assignment to the matchedAmount field of the record behind a
pointer — the observable mutation a caller can perform through a snapshot. -/
def MatchHeap.writeMatchedAmount (h : MatchHeap) (r : ℕ) (v : ℚ) : MatchHeap :=
  ⟨List.modify (fun m => { m with matchedAmount := v }) r h.cells⟩

/-- The OrderBook with its collections as object references: buy and sell
orders and match-history entries are pointers into the heaps. -/
structure HeapBook where
  buyOrders : List ℕ
  sellOrders : List ℕ
  «matches» : List ℕ
deriving DecidableEq, Repr

/-- The value getState returns, in reference form: the two collections and
the match-history array as pointer lists. -/
structure HeapSnapshot where
  buyOrders : List ℕ
  sellOrders : List ℕ
  «matches» : List ℕ
deriving DecidableEq, Repr

/-- Placeholder for a dangling read; never reached under the wf hypotheses
of the theorems below. -/
def dummyOrder : Order :=
  { id := "", type := .buy, price := 1, amount := 1, clientId := "",
    originalAmount := 1, timestamp := 0, status := .opened }

/-- OrderBook.getState in reference semantics: each collection order is
cloned into a freshly allocated cell (map order.clone); the match history
is copied as an array spread — a new pointer list whose entries are the
very same record pointers the book holds. -/
def getStateH (oh : OrderHeap) (bk : HeapBook) : OrderHeap × HeapSnapshot :=
  let buyVals := bk.buyOrders.map fun r => Order.clone ((oh.read r).getD dummyOrder)
  let sellVals := bk.sellOrders.map fun r => Order.clone ((oh.read r).getD dummyOrder)
  let n := oh.cells.length
  (⟨oh.cells ++ buyVals ++ sellVals⟩,
    { buyOrders := List.range' n buyVals.length
      sellOrders := List.range' (n + buyVals.length) sellVals.length
      «matches» := bk.matches })

/-- The book's match history as later observed (what a subsequent getState
exposes): each history pointer dereferenced. -/
def viewMatches (mh : MatchHeap) (refs : List ℕ) : List (Option OrderMatch) :=
  refs.map mh.read

/-- A collection of orders as later observed: each pointer dereferenced. -/
def viewOrders (oh : OrderHeap) (refs : List ℕ) : List (Option Order) :=
  refs.map oh.read

end P2PX

deriving instance DecidableEq for Except

unseal Rat.add Rat.sub Rat.mul Rat.inv

namespace P2PX

/-- The sort key realized by the sell-side comparator: (price, timestamp,
id), lexicographically. -/
def sellKey (o : Order) : Lex (ℚ × Lex (ℚ × String)) :=
  toLex (o.price, toLex (o.timestamp, o.id))

/-- The sort key realized by the buy-side comparator: price descending,
then timestamp, then id. -/
def buyKey (o : Order) : Lex (ℚ × Lex (ℚ × String)) :=
  toLex (-o.price, toLex (o.timestamp, o.id))

lemma ordCmp_ne_gt_iff {a b : ℚ} : ordCmp a b ≠ .gt ↔ a ≤ b := by
  unfold ordCmp
  rcases lt_trichotomy a b with h | h | h
  · simp [h, h.le, h.not_lt]
  · simp [h]
  · simp [h, h.not_lt, not_le_of_lt h, asymm h]

lemma ordCmp_eq_eq_iff {a b : ℚ} : ordCmp a b = .eq ↔ a = b := by
  unfold ordCmp
  rcases lt_trichotomy a b with h | h | h
  · simp [h, h.ne]
  · simp [h]
  · simp [h, h.not_lt, asymm h, (h.ne : b ≠ a).symm]

lemma idCmp_ne_gt_iff {a b : String} : idCmp a b ≠ .gt ↔ a ≤ b := by
  unfold idCmp
  rcases lt_trichotomy a b with h | h | h
  · simp [h, h.le, h.not_lt]
  · simp [h]
  · simp [h, h.not_lt, not_le_of_lt h, asymm h]

lemma idCmp_eq_eq_iff {a b : String} : idCmp a b = .eq ↔ a = b := by
  unfold idCmp
  rcases lt_trichotomy a b with h | h | h
  · simp [h, h.ne]
  · simp [h]
  · simp [h, h.not_lt, asymm h, (h.ne : b ≠ a).symm]

lemma ordCmp_self (a : ℚ) : ordCmp a a = .eq := by
  simp [ordCmp]

lemma idCmp_data_le_iff {a b : String} : idCmp a b ≠ .gt ↔ a.data ≤ b.data := by
  rw [idCmp_ne_gt_iff, String.le_iff_toList_le]
  rfl

lemma sellBookCmp_ne_gt_iff (a b : Order) :
    sellBookCmp a b ≠ .gt ↔ sellKey a ≤ sellKey b := by
  unfold sellBookCmp sellKey
  rw [Prod.Lex.le_iff, Prod.Lex.le_iff]
  rcases lt_trichotomy a.price b.price with h | h | h
  · have hpc : ordCmp a.price b.price = .lt := by simp [ordCmp, h]
    simp [hpc, h]
  · have hpc : ordCmp a.price b.price = .eq := ordCmp_eq_eq_iff.mpr h
    rcases lt_trichotomy a.timestamp b.timestamp with h2 | h2 | h2
    · have htc : ordCmp a.timestamp b.timestamp = .lt := by simp [ordCmp, h2]
      simp [hpc, htc, h, h2, ordCmp_self]
    · have htc : ordCmp a.timestamp b.timestamp = .eq := ordCmp_eq_eq_iff.mpr h2
      simp [hpc, htc, h, h2, idCmp_data_le_iff, ordCmp_self, lt_irrefl]
    · have htc : ordCmp a.timestamp b.timestamp = .gt := by
        simp [ordCmp, h2, h2.not_lt, asymm h2]
      simp [hpc, htc, h, h2.not_lt, asymm h2, (h2.ne : b.timestamp ≠ a.timestamp).symm,
        ordCmp_self, lt_irrefl]
  · have hpc : ordCmp a.price b.price = .gt := by simp [ordCmp, h, h.not_lt, asymm h]
    simp [hpc, h.not_lt, asymm h, (h.ne : b.price ≠ a.price).symm]

lemma buyBookCmp_ne_gt_iff (a b : Order) :
    buyBookCmp a b ≠ .gt ↔ buyKey a ≤ buyKey b := by
  unfold buyBookCmp buyKey
  rw [Prod.Lex.le_iff, Prod.Lex.le_iff]
  rcases lt_trichotomy b.price a.price with h | h | h
  · have hpc : ordCmp b.price a.price = .lt := by simp [ordCmp, h]
    simp [hpc, neg_lt_neg_iff.mpr h]
  · have hpc : ordCmp b.price a.price = .eq := ordCmp_eq_eq_iff.mpr h
    have hq : -a.price = -b.price := by rw [h.symm]
    rcases lt_trichotomy a.timestamp b.timestamp with h2 | h2 | h2
    · have htc : ordCmp a.timestamp b.timestamp = .lt := by simp [ordCmp, h2]
      simp [hpc, htc, hq, h2, ordCmp_self]
    · have htc : ordCmp a.timestamp b.timestamp = .eq := ordCmp_eq_eq_iff.mpr h2
      simp [hpc, htc, hq, h2, idCmp_data_le_iff, ordCmp_self, lt_irrefl]
    · have htc : ordCmp a.timestamp b.timestamp = .gt := by
        simp [ordCmp, h2, h2.not_lt, asymm h2]
      simp [hpc, htc, hq, h2.not_lt, asymm h2,
        (h2.ne : b.timestamp ≠ a.timestamp).symm, ordCmp_self, lt_irrefl]
  · have hpc : ordCmp b.price a.price = .gt := by simp [ordCmp, h, h.not_lt, asymm h]
    have hlt : -b.price < -a.price := neg_lt_neg_iff.mpr h
    simp [hpc, hlt.not_lt, asymm hlt, (hlt.ne : -b.price ≠ -a.price).symm]

end P2PX

namespace P2PX

/-- The key candCmp realizes for each incoming side: resting sell prices
ascending for an incoming BUY, resting buy prices descending for an
incoming SELL. -/
def candKey : OrderType → Order → Lex (ℚ × Lex (ℚ × String))
  | .buy => sellKey
  | .sell => buyKey

lemma candCmp_buy (a b : Order) : candCmp .buy a b = sellBookCmp a b := by
  simp [candCmp, sellBookCmp]

lemma candCmp_sell (a b : Order) : candCmp .sell a b = buyBookCmp a b := by
  simp [candCmp, buyBookCmp]

lemma candLE_iff (t : OrderType) (a b : Order) :
    candLE t a b = true ↔ candKey t a ≤ candKey t b := by
  cases t
  · rw [show candLE OrderType.buy a b = decide (candCmp .buy a b ≠ .gt) from rfl,
      decide_eq_true_eq, candCmp_buy]
    exact sellBookCmp_ne_gt_iff a b
  · rw [show candLE OrderType.sell a b = decide (candCmp .sell a b ≠ .gt) from rfl,
      decide_eq_true_eq, candCmp_sell]
    exact buyBookCmp_ne_gt_iff a b

lemma candLE_total (t : OrderType) (a b : Order) :
    candLE t a b = true ∨ candLE t b a = true := by
  rw [candLE_iff, candLE_iff]
  exact le_total _ _

lemma candLE_trans (t : OrderType) {a b c : Order} :
    candLE t a b = true → candLE t b c = true → candLE t a c = true := by
  rw [candLE_iff, candLE_iff, candLE_iff]
  exact le_trans

lemma candKey_id_inj {t : OrderType} {a b : Order}
    (h : candKey t a = candKey t b) : a.id = b.id := by
  cases t <;>
  · simp only [candKey, sellKey, buyKey, toLex_inj, Prod.mk.injEq] at h
    exact h.2.2

lemma sorted_sortCandidates (t : OrderType) (l : List Order) :
    List.Sorted (fun a b => candLE t a b = true) (sortCandidates t l) := by
  haveI : IsTotal Order (fun a b => candLE t a b = true) := ⟨candLE_total t⟩
  haveI : IsTrans Order (fun a b => candLE t a b = true) :=
    ⟨fun _ _ _ => candLE_trans t⟩
  exact List.sorted_insertionSort _ l

lemma sortCandidates_eq_of_perm (t : OrderType) {l₁ l₂ : List Order}
    (hperm : l₁.Perm l₂) (hids : (l₁.map Order.id).Nodup) :
    sortCandidates t l₁ = sortCandidates t l₂ := by
  apply @List.Perm.eq_of_sorted Order (fun a b => candLE t a b = true)
  · intro a b ha hb hab hba
    have ha₁ : a ∈ l₁ := (List.perm_insertionSort _ l₁).subset ha
    have hb₁ : b ∈ l₁ := hperm.symm.subset ((List.perm_insertionSort _ l₂).subset hb)
    have hk : candKey t a = candKey t b :=
      le_antisymm ((candLE_iff t a b).mp hab) ((candLE_iff t b a).mp hba)
    exact List.inj_on_of_nodup_map hids ha₁ hb₁ (candKey_id_inj hk)
  · exact sorted_sortCandidates t l₁
  · exact sorted_sortCandidates t l₂
  · exact (List.perm_insertionSort _ l₁).trans
      (hperm.trans (List.perm_insertionSort _ l₂).symm)

end P2PX

namespace P2PX

/-- C6: addOrder iterates match candidates in a deterministic total order:
the candidate sequence (addOrderCandidates) is the matchable working copies
sorted by candLE — for an incoming BUY ascending resting sell price, for an
incoming SELL descending resting buy price, tie-broken by ascending
timestamp and then by id — the order is total, the sorted sequence is a
permutation of the candidates, and any two enumerations of the same
candidates with pairwise-distinct ids sort to the same sequence, so
selection is reproducible for the same inputs. -/
theorem candidate_iteration_deterministic (t : OrderType) (l₁ l₂ : List Order)
    (hperm : l₁.Perm l₂) (hids : (l₁.map Order.id).Nodup) :
    sortCandidates t l₁ = sortCandidates t l₂ ∧
    (sortCandidates t l₁).Perm l₁ ∧
    List.Sorted (fun a b => candLE t a b = true) (sortCandidates t l₁) ∧
    (∀ a b : Order, candLE t a b = true ∨ candLE t b a = true) ∧
    (∀ (bk : OrderBook) (o : Order),
        addOrderCandidates bk o = sortCandidates o.type (findMatchingOrders bk o)) :=
  ⟨sortCandidates_eq_of_perm t hperm hids, List.perm_insertionSort _ l₁,
   sorted_sortCandidates t l₁, candLE_total t, fun _ _ => rfl⟩

/-- C6 witness: two resting sell orders at the same price 100 and the same
timestamp 7, distinguished only by id, sort to the same candidate sequence
from either enumeration order. -/
theorem candidate_iteration_deterministic_witness :
    sortCandidates .buy
        [⟨"idB", .sell, 100, 3, "y", 3, 7, .opened⟩,
         ⟨"idA", .sell, 100, 2, "x", 2, 7, .opened⟩]
      = sortCandidates .buy
        [⟨"idA", .sell, 100, 2, "x", 2, 7, .opened⟩,
         ⟨"idB", .sell, 100, 3, "y", 3, 7, .opened⟩] :=
  (candidate_iteration_deterministic .buy
    [⟨"idB", .sell, 100, 3, "y", 3, 7, .opened⟩,
     ⟨"idA", .sell, 100, 2, "x", 2, 7, .opened⟩]
    [⟨"idA", .sell, 100, 2, "x", 2, 7, .opened⟩,
     ⟨"idB", .sell, 100, 3, "y", 3, 7, .opened⟩]
    (by decide) (by decide)).1

/-- C1, evaluated at the Scenario B input: a resting SELL (price 100,
amount 10) against an incoming BUY (price 100, amount 5) produces one match
with matchedAmount 5 at price 100 and remainingOrder null — but the book's
resting sell order afterwards still has amount 10 and status OPEN: the fill
was applied to the working copy from findMatchingOrders, never to the order
held in the sell collection.  Only the copy stored inside the match record
carries the decremented amount. -/
theorem scenarioB_partial_fill_left_out_of_book :
    addOrder ⟨[], [⟨"sell-1", .sell, 100, 10, "seller", 10, 1, .opened⟩], []⟩
        ⟨"buy-1", .buy, 100, 5, "buyer", 5, 2, .opened⟩
        (fun k => "m-" ++ toString k) 3
      = .ok
        ({ order := ⟨"buy-1", .buy, 100, 0, "buyer", 5, 2, .filled⟩
           «matches» := [⟨"m-0", ⟨"buy-1", .buy, 100, 5, "buyer", 5, 2, .opened⟩,
                         ⟨"sell-1", .sell, 100, 10, "seller", 10, 1, .opened⟩, 5, 100, 3⟩]
           remainingOrder := none },
         { buyOrders := []
           sellOrders := [⟨"sell-1", .sell, 100, 10, "seller", 10, 1, .opened⟩]
           «matches» := [⟨"m-0", ⟨"buy-1", .buy, 100, 5, "buyer", 5, 2, .opened⟩,
                         ⟨"sell-1", .sell, 100, 10, "seller", 10, 1, .opened⟩, 5, 100, 3⟩] }) := by
  decide

/-- C2, evaluated: a shape-valid inbound request from a different clientId
is answered with nothing at all — handleRequest falls off the end without
invoking the reply callback and without touching the book — while an
own-clientId request does get the skipped reply, and a malformed envelope
gets the error reply.  There is no dispatch on the action. -/
theorem valid_foreign_request_not_dispatched :
    handleRequest "node-a" ⟨[], [], []⟩
        (.obj (some (.str "node-b")) (some (.str "getOrderbook")) (some .object))
      = (.noReply, ⟨[], [], []⟩) ∧
    isValidRPCPayload
        (.obj (some (.str "node-b")) (some (.str "getOrderbook")) (some .object)) = true ∧
    handleRequest "node-a" ⟨[], [], []⟩
        (.obj (some (.str "node-a")) (some (.str "getOrderbook")) (some .object))
      = (.statusReply "skipped" "own request", ⟨[], [], []⟩) ∧
    handleRequest "node-a" ⟨[], [], []⟩ .prim
      = (.errorReply "Invalid payload format", ⟨[], [], []⟩) := by
  decide

end P2PX

namespace P2PX

lemma sorted_sortBuyOrders (l : List Order) :
    List.Sorted (fun a b => buyBookCmp a b ≠ .gt) (sortBuyOrders l) := by
  haveI : IsTotal Order (fun a b => buyBookCmp a b ≠ .gt) :=
    ⟨fun a b => by rw [buyBookCmp_ne_gt_iff, buyBookCmp_ne_gt_iff]; exact le_total _ _⟩
  haveI : IsTrans Order (fun a b => buyBookCmp a b ≠ .gt) :=
    ⟨fun a b c hab hbc => by
      rw [buyBookCmp_ne_gt_iff] at hab hbc ⊢; exact le_trans hab hbc⟩
  exact List.sorted_insertionSort _ l

lemma sorted_sortSellOrders (l : List Order) :
    List.Sorted (fun a b => sellBookCmp a b ≠ .gt) (sortSellOrders l) := by
  haveI : IsTotal Order (fun a b => sellBookCmp a b ≠ .gt) :=
    ⟨fun a b => by rw [sellBookCmp_ne_gt_iff, sellBookCmp_ne_gt_iff]; exact le_total _ _⟩
  haveI : IsTrans Order (fun a b => sellBookCmp a b ≠ .gt) :=
    ⟨fun a b c hab hbc => by
      rw [sellBookCmp_ne_gt_iff] at hab hbc ⊢; exact le_trans hab hbc⟩
  exact List.sorted_insertionSort _ l

/-- C4 amended: OrderBook.setState validates only the shape of the three
fields — validation fails exactly when one of them is not an array, and a
failed validation raises INVALID_STATE leaving the book exactly as it was;
elements are not inspected (a primitive element passes, see the
counterexample).  When the three fields are arrays the result state is a
wholesale replacement: it does not depend on the prior book at all, both
collections are re-sorted permutations of the supplied records, and the
match history is exactly the supplied records. -/
theorem setState_shape_validation_only (bk bk₂ : OrderBook) (s : RawState) :
    (isValidState s = false ↔
      (s.buyOrders = .notArray ∨ s.sellOrders = .notArray ∨ s.matches = .notArray)) ∧
    (isValidState s = false → setState bk s = (.error .INVALID_STATE, bk)) ∧
    (isValidState s = true →
      (setState bk s).1 = .ok () ∧
      (setState bk s).2 = (setState bk₂ s).2 ∧
      ((setState bk s).2.buyOrders).Perm s.buyOrders.recordsOf ∧
      ((setState bk s).2.sellOrders).Perm s.sellOrders.recordsOf ∧
      (setState bk s).2.matches = s.matches.recordsOf ∧
      List.Sorted (fun a b => buyBookCmp a b ≠ .gt) (setState bk s).2.buyOrders ∧
      List.Sorted (fun a b => sellBookCmp a b ≠ .gt) (setState bk s).2.sellOrders) := by
  refine ⟨?_, ?_, ?_⟩
  · cases hb : s.buyOrders <;> cases hs : s.sellOrders <;> cases hm : s.matches <;>
      simp [isValidState, RawField.isArr, hb, hs, hm]
  · intro h
    unfold setState
    rw [if_pos (by simp [h])]
  · intro h
    unfold setState
    rw [if_neg (by simp [h]), if_neg (by simp [h])]
    exact ⟨rfl, rfl, List.perm_insertionSort _ _, List.perm_insertionSort _ _, rfl,
      sorted_sortBuyOrders _, sorted_sortSellOrders _⟩

/-- C4 counterexample: a state whose buyOrders array contains a primitive
element passes isValidState, so setState accepts it instead of raising
INVALID_STATE — element shape is never validated. -/
theorem setState_accepts_primitive_elements :
    (setState ⟨[], [], []⟩ ⟨.array [.primitive], .array [], .array []⟩).1 = .ok () ∧
    isValidState ⟨.array [.primitive], .array [], .array []⟩ = true := by
  decide

/-- C4 witness: a non-array matches field is rejected with the book left
untouched, and an all-arrays state is accepted. -/
theorem setState_shape_validation_only_witness :
    setState ⟨[], [], []⟩ ⟨.notArray, .array [], .array []⟩
      = (.error .INVALID_STATE, ⟨[], [], []⟩) ∧
    (setState ⟨[], [], []⟩ ⟨.array [], .array [], .array []⟩).1 = .ok () :=
  ⟨(setState_shape_validation_only ⟨[], [], []⟩ ⟨[], [], []⟩
      ⟨.notArray, .array [], .array []⟩).2.1 (by decide),
   ((setState_shape_validation_only ⟨[], [], []⟩ ⟨[], [], []⟩
      ⟨.array [], .array [], .array []⟩).2.2 (by decide)).1⟩

end P2PX

namespace P2PX

lemma removeOrder_some_length {l : List Order} {orderId : String} {o : Order}
    {l₁ : List Order} (h : removeOrder l orderId = (some o, l₁)) :
    l₁.length + 1 = l.length := by
  induction l generalizing l₁ with
  | nil => simp [removeOrder] at h
  | cons a t ih =>
    rw [removeOrder] at h
    by_cases ha : a.id = orderId
    · rw [if_pos ha] at h
      cases h
      simp
    · rw [if_neg ha] at h
      cases hrec : removeOrder t orderId with
      | mk r rest₁ =>
        rw [hrec] at h
        cases h
        have := ih (by rw [hrec])
        simp [← this]

lemma locateForCancel_length {bk : OrderBook} {orderId : String} {o : Order}
    {bk₁ : OrderBook} (h : locateForCancel bk orderId = some (o, bk₁)) :
    bk₁.buyOrders.length + bk₁.sellOrders.length + 1
      = bk.buyOrders.length + bk.sellOrders.length := by
  unfold locateForCancel at h
  cases hb : removeOrder bk.buyOrders orderId with
  | mk rb restb =>
    rw [hb] at h
    cases rb with
    | some ob =>
      cases h
      have := removeOrder_some_length hb
      simp only []
      omega
    | none =>
      cases hs : removeOrder bk.sellOrders orderId with
      | mk rs rests =>
        rw [hs] at h
        cases rs with
        | some os =>
          cases h
          have := removeOrder_some_length hs
          simp only []
          omega
        | none => cases h

/-- C9: cancelOrder is not atomic on failure.  Whenever the buy-then-sell
search locates an order whose status is FILLED (such a book is reachable by
installing the order through setState, which does not validate elements),
cancelOrder removes it from its collection first and only then lets
cancel() throw, rethrown as CANCEL_ERROR — so the call fails yet the book
it leaves behind is the one with the order already spliced out: one order
shorter, distinct from the original. -/
theorem cancelOrder_filled_removes_despite_error (bk : OrderBook) (orderId : String)
    (o : Order) (bk₁ : OrderBook)
    (hid : orderId ≠ "")
    (hloc : locateForCancel bk orderId = some (o, bk₁))
    (hfilled : o.status = OrderStatus.filled) :
    cancelOrder bk orderId = (.error .CANCEL_ERROR, bk₁) ∧
    bk₁.buyOrders.length + bk₁.sellOrders.length + 1
      = bk.buyOrders.length + bk.sellOrders.length ∧
    bk₁ ≠ bk := by
  have hlen := locateForCancel_length hloc
  refine ⟨?_, hlen, ?_⟩
  · have hcancel : o.cancel = .error .ORDER_FILLED := by
      rw [Order.cancel, if_pos hfilled]
    unfold cancelOrder
    rw [if_neg hid, hloc]
    simp [hcancel]
  · intro he
    rw [he] at hlen
    omega

/-- C9 witness: a FILLED order installed via setState; cancelling it throws
CANCEL_ERROR while the book has already lost the order. -/
theorem cancelOrder_filled_removes_despite_error_witness :
    cancelOrder
        (setState ⟨[], [], []⟩
          ⟨.array [.record ⟨"fx", .buy, 50, 0, "c", 5, 1, .filled⟩],
           .array [], .array []⟩).2 "fx"
      = (.error .CANCEL_ERROR, ⟨[], [], []⟩) :=
  (cancelOrder_filled_removes_despite_error
    (setState ⟨[], [], []⟩
      ⟨.array [.record ⟨"fx", .buy, 50, 0, "c", 5, 1, .filled⟩],
       .array [], .array []⟩).2 "fx"
    ⟨"fx", .buy, 50, 0, "c", 5, 1, .filled⟩ ⟨[], [], []⟩
    (by decide) (by decide) rfl).1

/-- C10: the duplicate-id precondition of addOrder consults only the two
active collections: for any active incoming order whose id does not occur
in either collection, addOrder succeeds — with no hypothesis at all on the
match history, which may mention the same id arbitrarily often. -/
theorem duplicate_check_ignores_match_history (bk : OrderBook) (order : Order)
    (genId : ℕ → String) (now : ℚ)
    (hact : order.isActive = true)
    (hbuy : ∀ o ∈ bk.buyOrders, o.id ≠ order.id)
    (hsell : ∀ o ∈ bk.sellOrders, o.id ≠ order.id) :
    ∃ res bk₁, addOrder bk order genId now = .ok (res, bk₁) := by
  have h1 : bk.buyOrders.find? (fun o => o.id = order.id) = none :=
    List.find?_eq_none.mpr fun x hx => by simp [hbuy x hx]
  have h2 : bk.sellOrders.find? (fun o => o.id = order.id) = none :=
    List.find?_eq_none.mpr fun x hx => by simp [hsell x hx]
  have hfind : findOrderById bk order.id = none := by
    unfold findOrderById
    rw [h1, h2]
    rfl
  unfold addOrder
  rw [if_neg (by simp [hact]), hfind]
  exact ⟨_, _, rfl⟩

/-- A book in which the order with id sx was fully filled: built by two
addOrder calls from the empty book, so both collections are empty while the
match history still references id sx. -/
def fullyFilledHistoryBook : OrderBook :=
  match addOrder ⟨[], [], []⟩ ⟨"sx", .sell, 100, 5, "seller", 5, 1, .opened⟩
      (fun _ => "m-a") 1 with
  | .ok (_, bk₁) =>
    match addOrder bk₁ ⟨"bx", .buy, 100, 5, "buyer", 5, 2, .opened⟩
        (fun _ => "m-b") 2 with
    | .ok (_, bk₂) => bk₂
    | .error _ => ⟨[], [], []⟩
  | .error _ => ⟨[], [], []⟩

/-- C10 witness: after the full fill of id sx its id lives on only in the
match history, and a later active order reusing id sx is accepted. -/
theorem duplicate_check_ignores_match_history_witness :
    (∃ res bk₁,
        addOrder fullyFilledHistoryBook ⟨"sx", .sell, 101, 7, "s2", 7, 9, .opened⟩
          (fun _ => "m-c") 9 = .ok (res, bk₁)) ∧
    fullyFilledHistoryBook.matches.map (fun m => m.sellOrder.id) = ["sx"] ∧
    fullyFilledHistoryBook.buyOrders = [] ∧ fullyFilledHistoryBook.sellOrders = [] :=
  ⟨duplicate_check_ignores_match_history fullyFilledHistoryBook
      ⟨"sx", .sell, 101, 7, "s2", 7, 9, .opened⟩ (fun _ => "m-c") 9
      (by decide) (by decide) (by decide),
   by decide, by decide, by decide⟩

end P2PX

namespace P2PX

/-- The remaining-amount / status invariant of the Order entity. -/
def orderInvariant (o : Order) : Prop :=
  0 ≤ o.amount ∧ o.amount ≤ o.originalAmount ∧
    (o.status = OrderStatus.filled ↔ o.amount = 0)

/-- The order value after a sequence of applyFill (updateAfterMatch) calls;
a failed call throws before mutating, leaving the order as it was, which the
error branch mirrors. -/
def applyFills (o : Order) (fs : List ℚ) : Order :=
  fs.foldl (fun acc f =>
    match acc.updateAfterMatch f with
    | .ok o₁ => o₁
    | .error _ => acc) o

lemma invariant_step {o : Order} (hinv : orderInvariant o) (f : ℚ) :
    orderInvariant (match o.updateAfterMatch f with
                    | .ok o₁ => o₁
                    | .error _ => o) := by
  obtain ⟨h0, hle, hiff⟩ := hinv
  unfold Order.updateAfterMatch
  by_cases h1 : f ≤ 0
  · rw [if_pos h1]
    exact ⟨h0, hle, hiff⟩
  · rw [if_neg h1]
    by_cases h2 : f > o.amount
    · rw [if_pos h2]
      exact ⟨h0, hle, hiff⟩
    · rw [if_neg h2]
      push_neg at h1 h2
      unfold Order.updateStatus
      by_cases h3 : o.amount - f = 0
      · simp only [h3, if_pos]
        refine ⟨by simp [h3], by simp [h3]; linarith, by simp⟩
      · have hlt : o.amount - f < o.originalAmount := by linarith
        simp only [h3, if_neg, hlt, if_pos]
        refine ⟨by simp; linarith, by simp; linarith, by simp [h3]⟩

/-- C5: an order created through the plain constructor path (side, price,
amount, clientId; defaults for id, originalAmount, timestamp, status) and
mutated only by applyFill calls always satisfies the invariant
0 ≤ amount ≤ originalAmount with status FILLED exactly when the remaining
amount is 0 — and from any such state, a fill larger than the remaining
amount is rejected with FILLED_AMOUNT_EXCEEDS_AVAILABLE (hence, by the
error branch of applyFills, leaves the order unchanged). -/
theorem fill_invariant (t : OrderType) (p a : ℚ) (c freshId : String) (now : ℚ)
    (o₀ : Order)
    (h : Order.create ⟨none, t, some p, some a, .str c, none, none, none⟩
      freshId now = .ok o₀)
    (fs : List ℚ) :
    orderInvariant (applyFills o₀ fs) ∧
    (∀ f, (applyFills o₀ fs).amount < f →
        (applyFills o₀ fs).updateAfterMatch f
          = .error .FILLED_AMOUNT_EXCEEDS_AVAILABLE) := by
  have hinv0 : orderInvariant o₀ := by
    unfold Order.create validateInputs at h
    dsimp only at h
    by_cases hp : p ≤ 0
    · rw [if_pos hp] at h
      exact absurd h (by simp)
    · rw [if_neg hp] at h
      by_cases ha : a < 0 ∨ (¬ (none : Option OrderStatus) = some OrderStatus.filled ∧ a = 0)
      · rw [if_pos ha] at h
        exact absurd h (by simp)
      · rw [if_neg ha] at h
        push_neg at ha
        by_cases hc : (JSVal.str c).isStr ∧ jsTrim (jsString (JSVal.str c)) ≠ ""
        · rw [if_neg (by simpa using hc)] at h
          simp only [Except.ok.injEq] at h
          have hne : ¬ a = 0 := by
            intro h0
            exact (ha.2 (by simp)) h0
          rw [← h]
          exact ⟨by simpa using ha.1, by simp, by simp [hne]⟩
        · rw [if_pos (by simpa using hc)] at h
          exact absurd h (by simp)
  have hmain : ∀ (o : Order), orderInvariant o →
      orderInvariant (applyFills o fs) := by
    unfold applyFills
    induction fs with
    | nil => intro o ho; exact ho
    | cons f rest ih =>
      intro o ho
      exact ih _ (invariant_step ho f)
  refine ⟨hmain o₀ hinv0, ?_⟩
  intro f hf
  have h0 : 0 ≤ (applyFills o₀ fs).amount := (hmain o₀ hinv0).1
  unfold Order.updateAfterMatch
  rw [if_neg (by linarith), if_pos hf]

/-- C5 witness: a fresh BUY order for 10 units filled by 4 then 6 keeps the
invariant at every step and rejects a further oversized fill. -/
theorem fill_invariant_witness :
    orderInvariant (applyFills ⟨"fid", .buy, 100, 10, "c", 10, 1, .opened⟩ [4, 6]) ∧
    (∀ f, (applyFills ⟨"fid", .buy, 100, 10, "c", 10, 1, .opened⟩ [4, 6]).amount < f →
        (applyFills ⟨"fid", .buy, 100, 10, "c", 10, 1, .opened⟩ [4, 6]).updateAfterMatch f
          = .error .FILLED_AMOUNT_EXCEEDS_AVAILABLE) :=
  fill_invariant .buy 100 10 "c" "fid" 1
    ⟨"fid", .buy, 100, 10, "c", 10, 1, .opened⟩ (by decide) [4, 6]

end P2PX

namespace P2PX

lemma reqLoop_len {α : Type} (attempt : ℕ → Except String α) :
    ∀ (fuel rc : ℕ), 0 < rc → (reqLoop attempt rc fuel).1.length ≤ fuel := by
  intro fuel
  induction fuel with
  | zero => intro rc _; simp [reqLoop]
  | succ n ih =>
    intro rc hrc
    rw [reqLoop]
    cases hat : attempt rc with
    | ok v => simp [hrc]
    | error e =>
      by_cases hr : isRetryableMsg e = true
      · by_cases h5 : 5 ≤ rc
        · simp [hrc, hr, h5]
        · cases hrec : reqLoop attempt (rc + 1) n with
          | mk ds r =>
            have hds : ds.length ≤ n := by
              have := ih (rc + 1) (by omega)
              rw [hrec] at this
              exact this
            simp [hrc, hr, h5, hrec]
            omega
      · simp [hrc, hr]

/-- C8 amended: requestWithTimeout makes at most 6 attempts (at most 5
backoff delays), the delay before the k-th retry being
getBackoffDelay 1000 k = 1000·1.5^(k−1); a first-attempt failure whose
message fails the retryability test — the test looks for the case-sensitive
substrings "Invalid" or "INVALID", so an all-lowercase "invalid" does NOT
abort (see the counterexample) — returns immediately with no retry and no
delay; and when every attempt fails with a retryable message, the loop runs
all 6 attempts, waits the 5 backoff delays, and raises the error of the
last (6th) attempt. -/
theorem retry_policy {α : Type} (attempt : ℕ → Except String α) :
    (requestWithTimeout attempt).1.length ≤ 5 ∧
    (∀ e, attempt 0 = .error e → isRetryableMsg e = false →
        requestWithTimeout attempt = ([], .error e)) ∧
    ((∀ k, k ≤ 5 → ∃ e, attempt k = .error e ∧ isRetryableMsg e = true) →
        ∃ e₅, attempt 5 = .error e₅ ∧
          requestWithTimeout attempt
            = ([getBackoffDelay 1000 1, getBackoffDelay 1000 2, getBackoffDelay 1000 3,
                getBackoffDelay 1000 4, getBackoffDelay 1000 5], .error e₅)) := by
  refine ⟨?_, ?_, ?_⟩
  · show (reqLoop attempt 0 (5 + 1)).1.length ≤ 5
    rw [reqLoop]
    cases hat : attempt 0 with
    | ok v => simp
    | error e =>
      by_cases hr : isRetryableMsg e = true
      · cases hrec : reqLoop attempt 1 5 with
        | mk ds r =>
          have hds : ds.length ≤ 5 := by
            have := reqLoop_len attempt 5 1 (by omega)
            rw [hrec] at this
            exact this
          simp [hr, hrec]
          omega
      · simp [hr]
  · intro e he hr
    show reqLoop attempt 0 (5 + 1) = ([], .error e)
    rw [reqLoop, he]
    simp [hr]
  · intro hall
    obtain ⟨e0, he0, hr0⟩ := hall 0 (by omega)
    obtain ⟨e1, he1, hr1⟩ := hall 1 (by omega)
    obtain ⟨e2, he2, hr2⟩ := hall 2 (by omega)
    obtain ⟨e3, he3, hr3⟩ := hall 3 (by omega)
    obtain ⟨e4, he4, hr4⟩ := hall 4 (by omega)
    obtain ⟨e5, he5, hr5⟩ := hall 5 (by omega)
    refine ⟨e5, he5, ?_⟩
    have s5 : reqLoop attempt 5 1 = ([getBackoffDelay 1000 5], .error e5) := by
      show reqLoop attempt 5 (0 + 1) = _
      rw [reqLoop, he5]
      simp
    have s4 : reqLoop attempt 4 2
        = ([getBackoffDelay 1000 4, getBackoffDelay 1000 5], .error e5) := by
      show reqLoop attempt 4 (1 + 1) = _
      rw [reqLoop, he4]
      simp [hr4, s5]
    have s3 : reqLoop attempt 3 3
        = ([getBackoffDelay 1000 3, getBackoffDelay 1000 4, getBackoffDelay 1000 5],
           .error e5) := by
      show reqLoop attempt 3 (2 + 1) = _
      rw [reqLoop, he3]
      simp [hr3, s4]
    have s2 : reqLoop attempt 2 4
        = ([getBackoffDelay 1000 2, getBackoffDelay 1000 3, getBackoffDelay 1000 4,
            getBackoffDelay 1000 5], .error e5) := by
      show reqLoop attempt 2 (3 + 1) = _
      rw [reqLoop, he2]
      simp [hr2, s3]
    have s1 : reqLoop attempt 1 5
        = ([getBackoffDelay 1000 1, getBackoffDelay 1000 2, getBackoffDelay 1000 3,
            getBackoffDelay 1000 4, getBackoffDelay 1000 5], .error e5) := by
      show reqLoop attempt 1 (4 + 1) = _
      rw [reqLoop, he1]
      simp [hr1, s2]
    show reqLoop attempt 0 (5 + 1) = _
    rw [reqLoop, he0]
    simp [hr0, s1]

/-- C8 counterexample: an error message containing only the all-lowercase
word "invalid" is treated as retryable (String.includes is case-sensitive
and the code tests only "Invalid" and "INVALID"), so instead of aborting
immediately with no retry the loop runs all 6 attempts and waits the five
backoff delays. -/
theorem lowercase_invalid_is_retried :
    requestWithTimeout (fun _ => (.error "invalid payload" : Except String ℕ))
      = ([1000, 1500, 2250, 3375, 10125 / 2], .error "invalid payload") ∧
    isRetryableMsg "invalid payload" = true ∧
    ([1000, 1500, 2250, 3375, (10125 : ℚ) / 2] : List ℚ) ≠ [] := by
  decide

/-- C8 witness: a message containing "Invalid" aborts on the first attempt
with no delay. -/
theorem retry_policy_witness :
    requestWithTimeout (fun _ => (.error "Invalid response format" : Except String ℕ))
      = ([], .error "Invalid response format") :=
  (retry_policy (fun _ => (.error "Invalid response format" : Except String ℕ))).2.1
    "Invalid response format" rfl (by decide)

end P2PX

namespace P2PX

/-- C7 amended: getState deep-copies the two order collections but only
shallow-copies the match history.  In the reference model: the snapshot's
match pointer array equals the book's (same records, new array); every
snapshot collection pointer is freshly allocated at or beyond the old heap
end and dereferences to a clone of the corresponding book order's value;
taking the snapshot changes no pre-existing cell, and a write through any
fresh pointer leaves every pre-existing cell unchanged (so mutating the
returned collection orders cannot touch the book); but an in-place write of
matchedAmount through a snapshot match record changes the book's match
history as observed by a later read. -/
theorem getState_shallow_matches_deep_collections (oh : OrderHeap) (bk : HeapBook) :
    (getStateH oh bk).2.matches = bk.matches ∧
    (∀ r ∈ (getStateH oh bk).2.buyOrders ++ (getStateH oh bk).2.sellOrders,
        oh.cells.length ≤ r) ∧
    (∀ k, ((getStateH oh bk).2.buyOrders.get? k).bind (getStateH oh bk).1.read
        = (bk.buyOrders.get? k).map
            (fun r => Order.clone ((oh.read r).getD dummyOrder))) ∧
    (∀ r, r < oh.cells.length → (getStateH oh bk).1.read r = oh.read r) ∧
    (∀ r₁, oh.cells.length ≤ r₁ → ∀ (o : Order) (r : ℕ), r < oh.cells.length →
        ((getStateH oh bk).1.write r₁ o).read r = (getStateH oh bk).1.read r) ∧
    (∀ (mh : MatchHeap) (k r : ℕ) (v : ℚ) (m : OrderMatch),
        (getStateH oh bk).2.matches.get? k = some r →
        mh.read r = some m →
        m.matchedAmount ≠ v →
        viewMatches (mh.writeMatchedAmount r v) bk.matches
          ≠ viewMatches mh bk.matches) := by
  refine ⟨rfl, ?_, ?_, ?_, ?_, ?_⟩
  · intro r hr
    rcases List.mem_append.mp hr with h | h <;>
    · have := (List.mem_range'_1.mp h).1
      omega
  · intro k
    show ((List.range' oh.cells.length
        (bk.buyOrders.map fun r => Order.clone ((oh.read r).getD dummyOrder)).length).get? k).bind
        (OrderHeap.read ⟨oh.cells
          ++ bk.buyOrders.map (fun r => Order.clone ((oh.read r).getD dummyOrder))
          ++ bk.sellOrders.map (fun r => Order.clone ((oh.read r).getD dummyOrder))⟩)
      = (bk.buyOrders.get? k).map fun r => Order.clone ((oh.read r).getD dummyOrder)
    by_cases hk : k < bk.buyOrders.length
    · have hrk : (List.range' oh.cells.length
          (bk.buyOrders.map fun r => Order.clone ((oh.read r).getD dummyOrder)).length).get? k
          = some (oh.cells.length + k) := by
        rw [List.get?_eq_getElem?, List.getElem?_range' _ _ (by simpa using hk)]
        simp
      rw [hrk]
      show OrderHeap.read _ (oh.cells.length + k) = _
      unfold OrderHeap.read
      show (oh.cells ++ _ ++ _).get? (oh.cells.length + k) = _
      rw [List.append_assoc, List.get?_append_right (by omega), Nat.add_sub_cancel_left,
        List.get?_append (by simpa using hk), List.get?_map]
    · have h1 : (List.range' oh.cells.length
          (bk.buyOrders.map fun r => Order.clone ((oh.read r).getD dummyOrder)).length).get? k
          = none := by
        rw [List.get?_eq_none]
        simpa using (by omega : bk.buyOrders.length ≤ k)
      have h2 : bk.buyOrders.get? k = none := by
        rw [List.get?_eq_none]
        omega
      rw [h1, h2]
      rfl
  · intro r hr
    show (⟨oh.cells ++ _ ++ _⟩ : OrderHeap).read r = oh.read r
    unfold OrderHeap.read
    show (oh.cells ++ _ ++ _).get? r = oh.cells.get? r
    rw [List.append_assoc, List.get?_append (by simpa using hr)]
  · intro r₁ hr₁ o r hr
    unfold OrderHeap.write OrderHeap.read
    exact List.get?_set_ne o _ (by omega)
  · intro mh k r v m hk hm hv heq
    have hbk : bk.matches.get? k = some r := hk
    have h1 := congrArg (fun l => l.get? k) heq
    simp only [viewMatches, List.get?_map, hbk, Option.map_some, Option.map_some'] at h1
    have hread : (mh.writeMatchedAmount r v).read r = some { m with matchedAmount := v } := by
      unfold MatchHeap.writeMatchedAmount MatchHeap.read
      show (List.modify _ r mh.cells).get? r = _
      rw [List.get?_eq_getElem?, List.getElem?_modify, ← List.get?_eq_getElem?]
      unfold MatchHeap.read at hm
      rw [hm]
      simp
    rw [hread, hm] at h1
    have h2 := congrArg OrderMatch.matchedAmount
      (Option.some.inj (Option.some.inj h1))
    simp at h2
    exact hv h2.symm

end P2PX

namespace P2PX

/-- Concrete one-match book for exercising the getState sharing: the match
heap holds one record (matchedAmount 5) and the book's history points at
it. -/
def demoMatch : OrderMatch :=
  ⟨"m1", ⟨"b1", .buy, 100, 5, "buyer", 5, 2, .opened⟩,
   ⟨"s1", .sell, 100, 10, "seller", 10, 1, .opened⟩, 5, 100, 3⟩

def demoMatchHeap : MatchHeap := ⟨[demoMatch]⟩

def demoHeapBook : HeapBook := ⟨[], [], [0]⟩

/-- C7 counterexample: getState copies the match-history array only
shallowly, so assigning matchedAmount := 42 through the first match record
of the returned snapshot changes the book's own match history as observed
by a subsequent read — a mutation through the returned snapshot that does
change the book's internal state. -/
theorem snapshot_match_mutation_reaches_book :
    viewMatches
        (demoMatchHeap.writeMatchedAmount
          ((getStateH ⟨[]⟩ demoHeapBook).2.matches.headI) 42)
        demoHeapBook.matches
      ≠ viewMatches demoMatchHeap demoHeapBook.matches := by
  decide

/-- C7 witness: the same sharing consequence obtained from the general
theorem at the concrete one-match book, writing 7 through the shared
record. -/
theorem getState_shallow_matches_deep_collections_witness :
    viewMatches (demoMatchHeap.writeMatchedAmount 0 7) demoHeapBook.matches
      ≠ viewMatches demoMatchHeap demoHeapBook.matches :=
  (getState_shallow_matches_deep_collections ⟨[]⟩ demoHeapBook).2.2.2.2.2
    demoMatchHeap 0 0 7 demoMatch (by decide) (by decide) (by decide)

end P2PX

namespace P2PX

lemma parseDec_empty : parseDec "" = some 0 := by decide

lemma truthy_of_toNumber_pos {v : JSVal} {q : ℚ} (h : toNumber v = some q)
    (hq : 0 < q) : v.truthy = true := by
  cases v with
  | str s =>
    by_cases hs : s = ""
    · subst hs
      rw [show toNumber (JSVal.str "") = some 0 from parseDec_empty] at h
      exact absurd (Option.some.inj h) (by intro hh; rw [← hh] at hq; exact lt_irrefl _ hq)
    · simpa [JSVal.truthy] using hs
  | num q₁ =>
    have := Option.some.inj h
    simp [JSVal.truthy]
    intro hz
    rw [hz] at this
    rw [← this] at hq
    exact lt_irrefl _ hq
  | nan => exact absurd h (by simp [toNumber])
  | jbool b =>
    cases b
    · have := Option.some.inj h
      rw [show (if false then (1:ℚ) else 0) = 0 from rfl] at this
      rw [← this] at hq
      exact absurd hq (lt_irrefl _)
    · rfl
  | jnull =>
    have := Option.some.inj h
    rw [← this] at hq
    exact absurd hq (lt_irrefl _)
  | undef => exact absurd h (by simp [toNumber])
  | object => exact absurd h (by simp [toNumber])

lemma statusOfStr_eq_filled {v : JSVal} (h : statusOfStr v = OrderStatus.filled) :
    v = JSVal.str "filled" := by
  unfold statusOfStr at h
  by_cases h1 : v = JSVal.str "filled"
  · exact h1
  · rw [if_neg h1] at h
    by_cases h2 : v = JSVal.str "partially_filled"
    · rw [if_pos h2] at h
      exact absurd h (by simp)
    · rw [if_neg h2] at h
      by_cases h3 : v = JSVal.str "cancelled"
      · rw [if_pos h3] at h
        exact absurd h (by simp)
      · rw [if_neg h3] at h
        exact absurd h (by simp)

lemma odStatus_filled_iff (d : RawOrderData) :
    ((if (d.status.getD .undef).truthy = true
        then some (statusOfStr (d.status.getD .undef)) else none)
      = some OrderStatus.filled)
      ↔ (d.status.getD .undef) = JSVal.str "filled" := by
  by_cases ht : (d.status.getD .undef).truthy = true
  · rw [if_pos ht]
    constructor
    · intro h
      exact statusOfStr_eq_filled (Option.some.inj h)
    · intro h
      rw [h]
      rfl
  · rw [if_neg ht]
    constructor
    · intro h
      exact absurd h (by simp)
    · intro h
      exact absurd (by rw [h]; rfl) ht

lemma isValidOrderData_spec {d : RawOrderData} (h : isValidOrderData d = true) :
    d.type.isSome = true ∧ d.clientId.isSome = true ∧
    (∃ p, toNumber (d.price.getD .undef) = some p ∧ 0 < p) ∧
    ((d.status.getD .undef) = JSVal.str "filled" →
        (∃ a, toNumber (d.amount.getD .undef) = some a ∧ 0 ≤ a) ∧
        (∃ oa, toNumber (d.originalAmount.getD .undef) = some oa ∧ 0 < oa)) ∧
    (¬ (d.status.getD .undef) = JSVal.str "filled" →
        ∃ a, toNumber (d.amount.getD .undef) = some a ∧ 0 < a) := by
  unfold isValidOrderData at h
  simp only [Bool.and_eq_true] at h
  obtain ⟨⟨⟨⟨⟨⟨h1, h2⟩, _h3⟩, hamt⟩, _hp1⟩, hpm⟩, _hstat⟩ := h
  refine ⟨h1, h2, ?_, ?_, ?_⟩
  · rcases hpn : toNumber (d.price.getD .undef) with _ | p
    · rw [hpn] at hpm
      exact absurd hpm (by simp)
    · rw [hpn] at hpm
      exact ⟨p, rfl, by simpa using hpm⟩
  · intro hsf
    rw [if_pos hsf] at hamt
    simp only [Bool.and_eq_true] at hamt
    obtain ⟨⟨⟨_, ha⟩, _⟩, hoa⟩ := hamt
    constructor
    · rcases han : toNumber (d.amount.getD .undef) with _ | a
      · rw [han] at ha
        exact absurd ha (by simp)
      · rw [han] at ha
        exact ⟨a, rfl, by simpa using ha⟩
    · rcases hoan : toNumber (d.originalAmount.getD .undef) with _ | oa
      · rw [hoan] at hoa
        exact absurd hoa (by simp)
      · rw [hoan] at hoa
        exact ⟨oa, rfl, by simpa using hoa⟩
  · intro hsf
    rw [if_neg hsf] at hamt
    simp only [Bool.and_eq_true] at hamt
    obtain ⟨_, ha⟩ := hamt
    rcases han : toNumber (d.amount.getD .undef) with _ | a
    · rw [han] at ha
      exact absurd ha (by simp)
    · rw [han] at ha
      exact ⟨a, rfl, by simpa using ha⟩

end P2PX

namespace P2PX

lemma create_error_cases (od : OrderData) (freshId : String) (now : ℚ)
    (hp : ∃ p, od.price = some p ∧ 0 < p)
    (hamt : ∃ a, od.amount = some a ∧ 0 ≤ a ∧
        (¬ od.status = some OrderStatus.filled → ¬ a = 0)) :
    (∃ o, Order.create od freshId now = .ok o) ∨
    (Order.create od freshId now = .error .INVALID_CLIENT_ID ∧
      ¬ (od.clientId.isStr = true ∧ jsTrim (jsString od.clientId) ≠ "")) := by
  obtain ⟨p, hp1, hp2⟩ := hp
  obtain ⟨a, ha1, ha2, ha3⟩ := hamt
  unfold Order.create validateInputs
  simp only [hp1, ha1]
  rw [if_neg (not_le.mpr hp2)]
  have hcond : ¬ (a < 0 ∨ (¬ od.status = some OrderStatus.filled ∧ a = 0)) := by
    rintro (hlt | ⟨hns, hz⟩)
    · exact absurd hlt (not_lt.mpr ha2)
    · exact (ha3 hns) hz
  rw [if_neg hcond]
  by_cases hc : od.clientId.isStr = true ∧ jsTrim (jsString od.clientId) ≠ ""
  · rw [if_neg (not_not_intro hc)]
    exact .inl ⟨_, rfl⟩
  · rw [if_pos hc]
    exact .inr ⟨rfl, hc⟩

/-- C3 amended: Order.fromObject, on any key/value record, either returns
an Order or fails with INVALID_ORDER_DATA — except in one case: when the
record passes isValidOrderData but its clientId (which validation only
tests for presence) is not a non-empty-after-trim string, the constructor's
own guard throws INVALID_CLIENT_ID and fromObject rethrows it unchanged.
No other error kind can escape: the INVALID_FILLED_ORDER re-check is
unreachable behind a passed validation, and the price/amount/type/status
constructor guards are all entailed by it. -/
theorem fromObject_error_kinds (d : RawOrderData) (freshId : String) (now : ℚ) :
    (∃ o, fromObject d freshId now = .ok o) ∨
    fromObject d freshId now = .error .INVALID_ORDER_DATA ∨
    (fromObject d freshId now = .error .INVALID_CLIENT_ID ∧
      d.clientId.isSome = true ∧
      ¬ ((d.clientId.getD .undef).isStr = true ∧
          jsTrim (jsString (d.clientId.getD .undef)) ≠ "")) := by
  by_cases hval : isValidOrderData d = true
  · obtain ⟨h1, h2, ⟨p, hp, hppos⟩, hfil, hnfil⟩ := isValidOrderData_spec hval
    have hamt : ∃ a, toNumber (d.amount.getD .undef) = some a ∧ 0 ≤ a ∧
        (¬ (if (d.status.getD .undef).truthy = true
              then some (statusOfStr (d.status.getD .undef)) else none)
            = some OrderStatus.filled → ¬ a = 0) := by
      by_cases hsf : (d.status.getD .undef) = JSVal.str "filled"
      · obtain ⟨⟨a, ha, hage⟩, _⟩ := hfil hsf
        exact ⟨a, ha, hage,
          fun hns => absurd ((odStatus_filled_iff d).mpr hsf) hns⟩
      · obtain ⟨a, ha, hapos⟩ := hnfil hsf
        exact ⟨a, ha, le_of_lt hapos, fun _ => ne_of_gt hapos⟩
    have hdead : ¬ ((d.status.getD .undef) = JSVal.str "filled" ∧
        toNumber (d.amount.getD .undef) = some 0 ∧
        ¬ (d.originalAmount.getD .undef).truthy = true) := by
      rintro ⟨hsf, _, hnt⟩
      obtain ⟨_, oa, hoa, hoapos⟩ := hfil hsf
      exact hnt (truthy_of_toNumber_pos hoa hoapos)
    unfold fromObject
    rw [if_neg (by simpa using hval), if_neg hdead]
    rcases create_error_cases
        { type := if d.type.getD .undef = JSVal.str "buy" then .buy else .sell
          price := toNumber (d.price.getD .undef)
          amount := toNumber (d.amount.getD .undef)
          clientId := d.clientId.getD .undef
          id := if (d.id.getD .undef).truthy then some (jsString (d.id.getD .undef)) else none
          originalAmount :=
            if (d.originalAmount.getD .undef).truthy then
              some (toNumber (d.originalAmount.getD .undef)) else none
          timestamp :=
            if (d.timestamp.getD .undef).truthy then
              some (toNumber (d.timestamp.getD .undef)) else none
          status :=
            if (d.status.getD .undef).truthy then
              some (statusOfStr (d.status.getD .undef)) else none }
        freshId now ⟨p, hp, hppos⟩ hamt with ⟨o, ho⟩ | ⟨herr, hc⟩
    · exact .inl ⟨o, ho⟩
    · exact .inr (.inr ⟨herr, h2, hc⟩)
  · refine .inr (.inl ?_)
    unfold fromObject
    rw [if_pos (by simpa using hval)]

/-- C3 counterexample: a record whose clientId is present but is the empty
string passes isValidOrderData, so fromObject reaches the constructor and
escapes with INVALID_CLIENT_ID — a different error kind than the
INVALID_ORDER_DATA the claim promises for every failure on this path. -/
theorem fromObject_leaks_invalid_client_id :
    fromObject
        ⟨none, some (.str "buy"), some (.num 10), some (.num 5),
         some (.str ""), none, none, none⟩ "fresh-id" 0
      = .error .INVALID_CLIENT_ID ∧
    OrderErrorCode.INVALID_CLIENT_ID ≠ OrderErrorCode.INVALID_ORDER_DATA := by
  decide

end P2PX
